import Mathlib

/-!
Verification of the out-of-band approval subsystem of the gmail-mcp-server
repository, a shallow embedding of the Go sources:
  * cmd/approval-daemon/daemon.go  — the approval daemon (queueEmail,
    startPolling, handlePollMessage, generateToken),
  * cmd/approval-daemon/socket.go  — the IPC request/response types,
  * main.go                        — the send_email_ato tool handler,
    sendToDaemon, the ntfy poll client, and the web-dashboard
    ApprovalSession with its QueueEmail/Approve/Reject operations and the
    HTTP approve/reject handlers.

Go strings are modelled as Lean strings; Go byte slices as lists of Nat;
the buffered result channel of capacity one as an `Option`; the daemon's
goroutines and its `sync.Mutex` as an explicit interleaving step relation
on a daemon state.
-/

namespace GmailMCP

/-! ## Go string helpers (strings.HasPrefix, strings.TrimPrefix) -/

/-- Model of Go strings.HasPrefix: `hasPrefix s p` is true when `p` is a
leading substring of `s`. -/
def hasPrefix (s p : String) : Bool :=
  p.data.isPrefixOf s.data

/-- Model of Go strings.TrimPrefix: removes the leading `p` from `s` when it
is present; otherwise returns `s` unchanged. -/
def trimPrefix (s p : String) : String :=
  if hasPrefix s p then ⟨s.data.drop p.data.length⟩ else s

theorem hasPrefix_append (p t : String) : hasPrefix (p ++ t) p = true := by
  simp [hasPrefix, List.isPrefixOf_iff_prefix]

theorem trimPrefix_append (p t : String) : trimPrefix (p ++ t) p = t := by
  simp [trimPrefix, hasPrefix_append]

theorem eq_append_of_hasPrefix {s p : String} (h : hasPrefix s p = true) :
    s = p ++ trimPrefix s p := by
  simp only [hasPrefix, List.isPrefixOf_iff_prefix] at h
  obtain ⟨u, hu⟩ := h
  simp only [trimPrefix, hasPrefix, List.isPrefixOf_iff_prefix]
  rw [if_pos (by exact ⟨u, hu⟩)]
  cases s with
  | mk ls =>
      cases hu
      show String.mk (p.data ++ u) = p ++ ⟨(p.data ++ u).drop p.data.length⟩
      simp only [List.drop_left]
      rfl

/-! ## Wire and daemon data types (socket.go, daemon.go, main.go) -/

/-- IPCRequest, socket.go: the JSON request the MCP server process sends the
approval daemon over the Unix socket. -/
structure IPCRequest where
  action : String := ""
  toAddr : String := ""  -- Go field To (recipient); `to` is a Lean keyword
  subject : String := ""
  body : String := ""
  draftID : String := ""
  deriving Repr, DecidableEq

/-- IPCResponse, socket.go: the JSON reply of the daemon. Absent JSON fields
are Go zero values, the empty string. -/
structure IPCResponse where
  success : Bool
  error : String := ""
  status : String := ""
  deriving Repr, DecidableEq

/-- ApprovalResult, daemon.go: the value a resolution path writes to the
buffered result channel of a pending email. `error = none` models a nil Go
error. -/
structure ApprovalResult where
  approved : Bool
  error : Option String := none
  deriving Repr, DecidableEq

/-- NtfyPollMessage, main.go: one decoded newline-delimited record of the
ntfy broker's poll endpoint. -/
structure NtfyPollMessage where
  id : String := ""
  time : Int := 0
  event : String := ""
  topic : String := ""
  message : String := ""
  deriving Repr, DecidableEq

namespace Daemon

/-- PendingEmail, daemon.go: the daemon's single pending-approval slot
content. The result channel itself is modelled separately as the daemon
state's `resultChan` field, since at most one pending email exists at a
time. Timestamps are unix seconds. -/
structure PendingEmail where
  draftID : String
  toAddr : String  -- Go field To; `to` is a Lean keyword
  subject : String
  body : String
  approveToken : String
  rejectToken : String
  queuedAt : Nat
  deriving Repr, DecidableEq

/-- The lowercase hexadecimal digit character of a nibble, as Go's
encoding/hex writes it. -/
def hexDigit (n : Nat) : Char :=
  if n < 10 then Char.ofNat (Char.toNat '0' + n) else Char.ofNat (Char.toNat 'a' + (n - 10))

/-- Model of hex.EncodeToString over a byte slice. -/
def hexEncode (bytes : List Nat) : String :=
  ⟨bytes.flatMap fun b => [hexDigit (b / 16 % 16), hexDigit (b % 16)]⟩

/-- generateToken, daemon.go: reads 16 bytes of cryptographic randomness and
hex-encodes them; when the randomness read fails it returns the empty string
together with the error. The randomness source is an explicit input:
`none` models a failed rand.Read. -/
def generateToken (entropy : Option (List Nat)) : String × Option String :=
  match entropy with
  | some bytes => (hexEncode bytes, none)
  | none => ("", some "rand read failed")

/-- The PendingEmail value queueEmail installs in the slot (daemon.go,
`d.pending = &PendingEmail{...}`): the request's fields plus two freshly
generated tokens, errors of generateToken discarded (`approveToken, _ :=
generateToken()`). -/
def makePending (req : IPCRequest) (entA entR : Option (List Nat)) (now : Nat) : PendingEmail :=
  { draftID := req.draftID
    toAddr := req.toAddr
    subject := req.subject
    body := req.body
    approveToken := (generateToken entA).1
    rejectToken := (generateToken entR).1
    queuedAt := now }

/-- handlePollMessage, daemon.go: matches a polled broker message against the
pending email's tokens and returns the ApprovalResult it sends on the result
channel, or `none` when nothing matches and nothing is sent. -/
def handlePollMessage (msg : NtfyPollMessage) (pending : PendingEmail) : Option ApprovalResult :=
  if hasPrefix msg.message "APPROVE:" then
    let token := trimPrefix msg.message "APPROVE:"
    if token = pending.approveToken then some { approved := true } else none
  else if hasPrefix msg.message "REJECT:" then
    let token := trimPrefix msg.message "REJECT:"
    if token = pending.rejectToken then some { approved := false } else none
  else none

/-! ## queueEmail's return values (daemon.go) -/

/-- The response of queueEmail's busy branch (`d.pending != nil`). -/
def busyResponse : IPCResponse :=
  { success := false, error := "another email is pending approval - only one at a time" }

/-- The response of queueEmail when sendApprovalNotification fails. -/
def dispatchFailureResponse (e : String) : IPCResponse :=
  { success := false, error := "failed to send notification: " ++ e }

/-- The response of queueEmail's `time.After(5 * time.Minute)` select arm. -/
def timeoutResponse : IPCResponse :=
  { success := false, error := "approval timed out" }

/-- The mapping of queueEmail's `result := <-d.pending.ResultChan` select arm:
a non-nil result error yields a failure carrying it, an approved result the
success response with status "approved", anything else "rejected by user". -/
def resultToResponse (r : ApprovalResult) : IPCResponse :=
  match r.error with
  | some e => { success := false, error := e }
  | none =>
      if r.approved then { success := true, status := "approved" }
      else { success := false, error := "rejected by user" }

/-- The only successful response queueEmail ever returns. -/
def approvedResponse : IPCResponse :=
  { success := true, status := "approved" }

/-- queueEmail's timeout: `time.After(5 * time.Minute)`. -/
def queueTimeoutMinutes : Nat := 5

/-! ## The daemon as an interleaving transition system

queueEmail runs on one goroutine per IPC connection and startPolling on its
own goroutine; they share the `pending` slot, guarded by `d.mu`, and the
pending email's buffered result channel. The model has two enqueue threads
and the poll thread; the broker, the randomness source, the clock and the
notification transport are nondeterministic step parameters. Crucially, the
model keeps queueEmail's actual locking structure: `d.mu.Lock()` with
`defer d.mu.Unlock()` at the top of the function, so the mutex is held from
the busy check through token generation, slot installation, notification
dispatch and the entire blocking select, and is released only when the
function returns. -/

/-- The two IPC-connection goroutines of the model. -/
inductive Tid
  | t0
  | t1
  deriving Repr, DecidableEq

/-- Who holds `d.mu`. -/
inductive Owner
  | enqOwner (t : Tid)
  | pollOwner
  deriving Repr, DecidableEq

/-- Control locations of a queueEmail call, following daemon.go top to
bottom: about to call (idle), past `d.mu.Lock()` and at the busy check
(locked), tokens generated and slot installed, inside
sendApprovalNotification (dispatching), blocked in the select (waiting),
returned (done, carrying the IPCResponse). -/
inductive EnqPhase
  | idle (req : IPCRequest)
  | locked (req : IPCRequest)
  | dispatching
  | waiting
  | done (resp : IPCResponse)
  deriving Repr, DecidableEq

/-- Control locations of the startPolling goroutine: between ticks
(sleeping), at `d.mu.Lock()` after a tick (acquiring), holding the lock to
read `d.pending` (reading), iterating the polled messages over a snapshot
of the pending email (delivering). -/
inductive PollPhase
  | sleeping
  | acquiring
  | reading
  | delivering (snapshot : PendingEmail) (msgs : List NtfyPollMessage)
  deriving Repr, DecidableEq

/-- The daemon's shared state plus the threads' control locations.
`resultChan` is the pending email's buffered (capacity 1) result channel:
`none` when empty. -/
structure DState where
  mutex : Option Owner
  pending : Option PendingEmail
  resultChan : Option ApprovalResult
  enq : Tid → EnqPhase
  poll : PollPhase

/-- Update one enqueue thread's phase. -/
def setEnq (f : Tid → EnqPhase) (t : Tid) (ph : EnqPhase) : Tid → EnqPhase :=
  fun u => if u = t then ph else f u

/-- Which thread a step belongs to. -/
inductive Actor
  | enqAct (t : Tid)
  | pollAct
  deriving Repr, DecidableEq

/-- One interleaving step of the daemon. Each constructor is one atomic
piece of daemon.go:
  * acquire:       queueEmail's `d.mu.Lock()`;
  * busy:          the `d.pending != nil` early return (under `defer
                   d.mu.Unlock()`);
  * install:       token generation and `d.pending = &PendingEmail{...}`;
  * dispatchOk:    sendApprovalNotification returning nil;
  * dispatchFail:  sendApprovalNotification failing, `d.pending = nil` and
                   the error return;
  * receive:       the `result := <-d.pending.ResultChan` select arm;
  * timeout:       the `time.After(5 * time.Minute)` select arm;
  * tick:          the poll goroutine's ticker firing;
  * pollAcquire:   startPolling's `d.mu.Lock()`;
  * pollReadNone:  reading `d.pending == nil`, unlock and continue;
  * pollReadSome:  reading a pending snapshot, unlock, then
                   pollNtfyMessages returning an arbitrary batch;
  * deliverMatch:  handlePollMessage sending a result into the empty
                   buffered channel;
  * deliverSkip:   handlePollMessage matching nothing;
  * deliverDone:   the message loop finishing. -/
inductive Step : Actor → DState → DState → Prop
  | acquire (t : Tid) (req : IPCRequest) (s : DState) :
      s.enq t = .idle req → s.mutex = none →
      Step (.enqAct t) s
        { s with mutex := some (.enqOwner t), enq := setEnq s.enq t (.locked req) }
  | busy (t : Tid) (req : IPCRequest) (p : PendingEmail) (s : DState) :
      s.enq t = .locked req → s.pending = some p →
      Step (.enqAct t) s
        { s with mutex := none, enq := setEnq s.enq t (.done busyResponse) }
  | install (t : Tid) (req : IPCRequest) (entA entR : Option (List Nat)) (now : Nat)
      (s : DState) :
      s.enq t = .locked req → s.pending = none →
      Step (.enqAct t) s
        { s with pending := some (makePending req entA entR now),
                 enq := setEnq s.enq t .dispatching }
  | dispatchOk (t : Tid) (s : DState) :
      s.enq t = .dispatching →
      Step (.enqAct t) s { s with enq := setEnq s.enq t .waiting }
  | dispatchFail (t : Tid) (e : String) (s : DState) :
      s.enq t = .dispatching →
      Step (.enqAct t) s
        { s with pending := none, mutex := none,
                 enq := setEnq s.enq t (.done (dispatchFailureResponse e)) }
  | receive (t : Tid) (r : ApprovalResult) (s : DState) :
      s.enq t = .waiting → s.resultChan = some r →
      Step (.enqAct t) s
        { s with resultChan := none, pending := none, mutex := none,
                 enq := setEnq s.enq t (.done (resultToResponse r)) }
  | timeout (t : Tid) (s : DState) :
      s.enq t = .waiting →
      Step (.enqAct t) s
        { s with pending := none, mutex := none,
                 enq := setEnq s.enq t (.done timeoutResponse) }
  | tick (s : DState) :
      s.poll = .sleeping →
      Step .pollAct s { s with poll := .acquiring }
  | pollAcquire (s : DState) :
      s.poll = .acquiring → s.mutex = none →
      Step .pollAct s { s with mutex := some .pollOwner, poll := .reading }
  | pollReadNone (s : DState) :
      s.poll = .reading → s.pending = none →
      Step .pollAct s { s with mutex := none, poll := .sleeping }
  | pollReadSome (p : PendingEmail) (msgs : List NtfyPollMessage) (s : DState) :
      s.poll = .reading → s.pending = some p →
      Step .pollAct s { s with mutex := none, poll := .delivering p msgs }
  | deliverMatch (p : PendingEmail) (m : NtfyPollMessage) (rest : List NtfyPollMessage)
      (r : ApprovalResult) (s : DState) :
      s.poll = .delivering p (m :: rest) → handlePollMessage m p = some r →
      s.resultChan = none →
      Step .pollAct s { s with resultChan := some r, poll := .delivering p rest }
  | deliverSkip (p : PendingEmail) (m : NtfyPollMessage) (rest : List NtfyPollMessage)
      (s : DState) :
      s.poll = .delivering p (m :: rest) → handlePollMessage m p = none →
      Step .pollAct s { s with poll := .delivering p rest }
  | deliverDone (p : PendingEmail) (s : DState) :
      s.poll = .delivering p [] →
      Step .pollAct s { s with poll := .sleeping }

/-- The daemon's start state: lock free, empty slot and channel, both IPC
goroutines about to call queueEmail with their requests, poll goroutine
between ticks. -/
def initState (r0 r1 : IPCRequest) : DState :=
  { mutex := none
    pending := none
    resultChan := none
    enq := fun t => match t with | .t0 => .idle r0 | .t1 => .idle r1
    poll := .sleeping }

/-- Reachability from the start state by any interleaving. -/
def Reach (r0 r1 : IPCRequest) (s : DState) : Prop :=
  Relation.ReflTransGen (fun a b => ∃ act, Step act a b) (initState r0 r1) s

/-! ## Reachability invariant of the daemon -/

/-- Whether an enqueue thread is inside queueEmail's critical section, i.e.
between its `d.mu.Lock()` and the release on return. -/
def inCrit : EnqPhase → Bool
  | .locked _ => true
  | .dispatching => true
  | .waiting => true
  | _ => false

/-- The inductive invariant of the daemon system. Its striking consequences,
all direct images of queueEmail's `defer d.mu.Unlock()` covering the whole
function body: whenever the mutex is free the slot is empty, so the busy
branch is dead code; the poll goroutine can never get past `d.mu.Lock()`
while an approval is pending, so the result channel stays empty forever and
no queueEmail call ever returns by the receive arm. -/
structure Inv (s : DState) : Prop where
  mutexEnq : ∀ t, s.mutex = some (.enqOwner t) ↔ inCrit (s.enq t) = true
  mutexPoll : s.mutex = some .pollOwner ↔ s.poll = .reading
  pendingCrit : ∀ p, s.pending = some p →
    ∃ t, s.enq t = .dispatching ∨ s.enq t = .waiting
  critPending : ∀ t, (s.enq t = .dispatching ∨ s.enq t = .waiting) → s.pending ≠ none
  chanEmpty : s.resultChan = none
  noDelivering : ∀ p msgs, s.poll ≠ .delivering p msgs
  lockedPendingNone : ∀ t req, s.enq t = .locked req → s.pending = none
  noBusyDone : ∀ t, s.enq t ≠ .done busyResponse

theorem inCrit_of_dispatching_or_waiting {ph : EnqPhase}
    (h : ph = .dispatching ∨ ph = .waiting) : inCrit ph = true := by
  rcases h with h | h <;> subst h <;> rfl

/-- Two enqueue threads cannot be in the critical section at once: the mutex
names its single holder. -/
theorem crit_unique {s : DState} (hI : Inv s) {t u : Tid}
    (ht : inCrit (s.enq t) = true) (hu : inCrit (s.enq u) = true) : t = u := by
  have h1 := (hI.mutexEnq t).mpr ht
  have h2 := (hI.mutexEnq u).mpr hu
  rw [h1] at h2
  injection h2 with h3
  injection h3 with h4

theorem inv_init (r0 r1 : IPCRequest) : Inv (initState r0 r1) := by
  refine ⟨?_, ?_, ?_, ?_, ?_, ?_, ?_, ?_⟩
  · intro t
    constructor
    · intro h
      exact absurd h (by simp [initState])
    · intro h
      cases t <;> simp [initState, inCrit] at h
  · constructor
    · intro h
      exact absurd h (by simp [initState])
    · intro h
      simp [initState] at h
  · intro p hp
    simp [initState] at hp
  · intro t ht
    cases t <;> simp [initState] at ht
  · rfl
  · intro p msgs h
    simp [initState] at h
  · intro t req h
    cases t <;> simp [initState] at h
  · intro t h
    cases t <;> simp [initState] at h

theorem setEnq_same (f : Tid → EnqPhase) (t : Tid) (ph : EnqPhase) :
    setEnq f t ph t = ph := by
  simp [setEnq]

theorem setEnq_other (f : Tid → EnqPhase) {t u : Tid} (ph : EnqPhase) (h : u ≠ t) :
    setEnq f t ph u = f u := by
  simp [setEnq, h]

/-- queueEmail's dispatch-failure response is never the busy response: their
error strings differ in the first character. -/
theorem dispatchFailureResponse_ne_busyResponse (e : String) :
    dispatchFailureResponse e ≠ busyResponse := by
  intro h
  have h2 := congrArg (fun r => r.error.data.head?) h
  dsimp only [dispatchFailureResponse, busyResponse] at h2
  rw [show ("failed to send notification: " ++ e).data
        = "failed to send notification: ".data ++ e.data from rfl] at h2
  rw [List.head?_append] at h2
  rw [show "failed to send notification: ".data.head? = some 'f' from by decide] at h2
  rw [show "another email is pending approval - only one at a time".data.head?
        = some 'a' from by decide] at h2
  simp at h2

theorem inv_step {a : Actor} {s s' : DState} (hI : Inv s) (hs : Step a s s') : Inv s' := by
  cases hs with
  | acquire =>
      rename_i t req hph hmu
      -- before the lock is taken every thread is outside the critical section
      have hout : ∀ u, inCrit (s.enq u) = false := by
        intro u
        cases hb : inCrit (s.enq u)
        · rfl
        · exfalso
          have hc := (hI.mutexEnq u).mpr hb
          rw [hmu] at hc
          exact Option.noConfusion hc
      -- and therefore, by the invariant, the slot is empty
      have hpend : s.pending = none := by
        cases hp : s.pending with
        | none => rfl
        | some p =>
            exfalso
            obtain ⟨u, hu⟩ := hI.pendingCrit p hp
            have h2 := inCrit_of_dispatching_or_waiting hu
            rw [hout u] at h2
            exact Bool.noConfusion h2
      refine ⟨?_, ?_, ?_, ?_, ?_, ?_, ?_, ?_⟩ <;> dsimp only
      · intro u
        by_cases hut : u = t
        · subst hut
          rw [setEnq_same]
          simp [inCrit]
        · rw [setEnq_other _ _ hut, hout u]
          constructor
          · intro h
            exfalso
            injection h with h2
            injection h2 with h3
            exact hut h3.symm
          · intro h
            exact Bool.noConfusion h
      · constructor
        · intro h
          exfalso
          simp at h
        · intro h
          exfalso
          have h2 := hI.mutexPoll.mpr h
          rw [hmu] at h2
          exact Option.noConfusion h2
      · intro p hp
        rw [hpend] at hp
        exact Option.noConfusion hp
      · intro u hu
        exfalso
        by_cases hut : u = t
        · subst hut
          rw [setEnq_same] at hu
          rcases hu with h | h <;> exact EnqPhase.noConfusion h
        · rw [setEnq_other _ _ hut] at hu
          have h2 := inCrit_of_dispatching_or_waiting hu
          rw [hout u] at h2
          exact Bool.noConfusion h2
      · exact hI.chanEmpty
      · exact hI.noDelivering
      · intro u requ hu
        exact hpend
      · intro u
        by_cases hut : u = t
        · subst hut
          rw [setEnq_same]
          exact fun h => EnqPhase.noConfusion h
        · rw [setEnq_other _ _ hut]
          exact hI.noBusyDone u
  | busy =>
      rename_i t req p hph hpend
      -- dead branch: a thread at the busy check coexisting with a non-empty
      -- slot contradicts the invariant
      exfalso
      have h2 := hI.lockedPendingNone t req hph
      rw [hpend] at h2
      exact Option.noConfusion h2
  | install =>
      rename_i t req entA entR now hph hpend
      have hmu : s.mutex = some (.enqOwner t) :=
        (hI.mutexEnq t).mpr (by rw [hph]; rfl)
      refine ⟨?_, ?_, ?_, ?_, ?_, ?_, ?_, ?_⟩ <;> dsimp only
      · intro u
        by_cases hut : u = t
        · subst hut
          rw [setEnq_same, hmu]
          simp [inCrit]
        · rw [setEnq_other _ _ hut, hmu]
          constructor
          · intro h
            exfalso
            injection h with h2
            injection h2 with h3
            exact hut h3.symm
          · intro h
            exfalso
            exact hut (crit_unique hI h (by rw [hph]; rfl))
      · rw [hmu]
        constructor
        · intro h
          exfalso
          simp at h
        · intro h
          exfalso
          have h2 := hI.mutexPoll.mpr h
          rw [hmu] at h2
          simp at h2
      · intro p hp
        exact ⟨t, Or.inl (setEnq_same _ _ _)⟩
      · intro u hu h
        exact Option.noConfusion h
      · exact hI.chanEmpty
      · exact hI.noDelivering
      · intro u requ hu
        exfalso
        by_cases hut : u = t
        · subst hut
          rw [setEnq_same] at hu
          exact EnqPhase.noConfusion hu
        · rw [setEnq_other _ _ hut] at hu
          exact hut (crit_unique hI (by rw [hu]; rfl) (by rw [hph]; rfl))
      · intro u
        by_cases hut : u = t
        · subst hut
          rw [setEnq_same]
          exact fun h => EnqPhase.noConfusion h
        · rw [setEnq_other _ _ hut]
          exact hI.noBusyDone u
  | dispatchOk =>
      rename_i t hph
      have hmu : s.mutex = some (.enqOwner t) :=
        (hI.mutexEnq t).mpr (by rw [hph]; rfl)
      refine ⟨?_, ?_, ?_, ?_, ?_, ?_, ?_, ?_⟩ <;> dsimp only
      · intro u
        by_cases hut : u = t
        · subst hut
          rw [setEnq_same, hmu]
          simp [inCrit]
        · rw [setEnq_other _ _ hut, hmu]
          constructor
          · intro h
            exfalso
            injection h with h2
            injection h2 with h3
            exact hut h3.symm
          · intro h
            exfalso
            exact hut (crit_unique hI h (by rw [hph]; rfl))
      · exact hI.mutexPoll
      · intro p hp
        exact ⟨t, Or.inr (setEnq_same _ _ _)⟩
      · intro u hu
        exact hI.critPending t (Or.inl hph)
      · exact hI.chanEmpty
      · exact hI.noDelivering
      · intro u requ hu
        exfalso
        by_cases hut : u = t
        · subst hut
          rw [setEnq_same] at hu
          exact EnqPhase.noConfusion hu
        · rw [setEnq_other _ _ hut] at hu
          exact hut (crit_unique hI (by rw [hu]; rfl) (by rw [hph]; rfl))
      · intro u
        by_cases hut : u = t
        · subst hut
          rw [setEnq_same]
          exact fun h => EnqPhase.noConfusion h
        · rw [setEnq_other _ _ hut]
          exact hI.noBusyDone u
  | dispatchFail =>
      rename_i t e hph
      have hmu : s.mutex = some (.enqOwner t) :=
        (hI.mutexEnq t).mpr (by rw [hph]; rfl)
      refine ⟨?_, ?_, ?_, ?_, ?_, ?_, ?_, ?_⟩ <;> dsimp only
      · intro u
        constructor
        · intro h
          exact Option.noConfusion h
        · intro h
          exfalso
          by_cases hut : u = t
          · subst hut
            rw [setEnq_same] at h
            simp [inCrit] at h
          · rw [setEnq_other _ _ hut] at h
            exact hut (crit_unique hI h (by rw [hph]; rfl))
      · constructor
        · intro h
          exact Option.noConfusion h
        · intro h
          exfalso
          have h2 := hI.mutexPoll.mpr h
          rw [hmu] at h2
          simp at h2
      · intro p hp
        exact Option.noConfusion hp
      · intro u hu
        exfalso
        by_cases hut : u = t
        · subst hut
          rw [setEnq_same] at hu
          rcases hu with h | h <;> exact EnqPhase.noConfusion h
        · rw [setEnq_other _ _ hut] at hu
          exact hut (crit_unique hI (inCrit_of_dispatching_or_waiting hu) (by rw [hph]; rfl))
      · exact hI.chanEmpty
      · exact hI.noDelivering
      · intro u requ hu
        rfl
      · intro u
        by_cases hut : u = t
        · subst hut
          rw [setEnq_same]
          intro h
          injection h with h2
          exact dispatchFailureResponse_ne_busyResponse e h2
        · rw [setEnq_other _ _ hut]
          exact hI.noBusyDone u
  | receive =>
      rename_i t r hph hchan
      -- dead branch: the result channel is provably always empty
      exfalso
      rw [hI.chanEmpty] at hchan
      exact Option.noConfusion hchan
  | timeout =>
      rename_i t hph
      have hmu : s.mutex = some (.enqOwner t) :=
        (hI.mutexEnq t).mpr (by rw [hph]; rfl)
      refine ⟨?_, ?_, ?_, ?_, ?_, ?_, ?_, ?_⟩ <;> dsimp only
      · intro u
        constructor
        · intro h
          exact Option.noConfusion h
        · intro h
          exfalso
          by_cases hut : u = t
          · subst hut
            rw [setEnq_same] at h
            simp [inCrit] at h
          · rw [setEnq_other _ _ hut] at h
            exact hut (crit_unique hI h (by rw [hph]; rfl))
      · constructor
        · intro h
          exact Option.noConfusion h
        · intro h
          exfalso
          have h2 := hI.mutexPoll.mpr h
          rw [hmu] at h2
          simp at h2
      · intro p hp
        exact Option.noConfusion hp
      · intro u hu
        exfalso
        by_cases hut : u = t
        · subst hut
          rw [setEnq_same] at hu
          rcases hu with h | h <;> exact EnqPhase.noConfusion h
        · rw [setEnq_other _ _ hut] at hu
          exact hut (crit_unique hI (inCrit_of_dispatching_or_waiting hu) (by rw [hph]; rfl))
      · exact hI.chanEmpty
      · exact hI.noDelivering
      · intro u requ hu
        rfl
      · intro u
        by_cases hut : u = t
        · subst hut
          rw [setEnq_same]
          intro h
          injection h with h2
          exact absurd h2 (by decide)
        · rw [setEnq_other _ _ hut]
          exact hI.noBusyDone u
  | tick =>
      rename_i hpo
      refine ⟨?_, ?_, ?_, ?_, ?_, ?_, ?_, ?_⟩ <;> dsimp only
      · exact hI.mutexEnq
      · constructor
        · intro h
          exfalso
          have h2 := hI.mutexPoll.mp h
          rw [hpo] at h2
          exact PollPhase.noConfusion h2
        · intro h
          exact PollPhase.noConfusion h
      · exact hI.pendingCrit
      · exact hI.critPending
      · exact hI.chanEmpty
      · intro p msgs h
        exact PollPhase.noConfusion h
      · exact hI.lockedPendingNone
      · exact hI.noBusyDone
  | pollAcquire =>
      rename_i hpo hmu
      have hout : ∀ u, inCrit (s.enq u) = false := by
        intro u
        cases hb : inCrit (s.enq u)
        · rfl
        · exfalso
          have hc := (hI.mutexEnq u).mpr hb
          rw [hmu] at hc
          exact Option.noConfusion hc
      refine ⟨?_, ?_, ?_, ?_, ?_, ?_, ?_, ?_⟩ <;> dsimp only
      · intro u
        constructor
        · intro h
          exfalso
          simp at h
        · intro h
          rw [hout u] at h
          exact Bool.noConfusion h
      · simp
      · exact hI.pendingCrit
      · exact hI.critPending
      · exact hI.chanEmpty
      · intro p msgs h
        exact PollPhase.noConfusion h
      · exact hI.lockedPendingNone
      · exact hI.noBusyDone
  | pollReadNone =>
      rename_i hpo hpend
      refine ⟨?_, ?_, ?_, ?_, ?_, ?_, ?_, ?_⟩ <;> dsimp only
      · intro u
        constructor
        · intro h
          exact Option.noConfusion h
        · intro h
          exfalso
          have h2 := (hI.mutexEnq u).mpr h
          rw [hI.mutexPoll.mpr hpo] at h2
          simp at h2
      · constructor
        · intro h
          exact Option.noConfusion h
        · intro h
          exact PollPhase.noConfusion h
      · exact hI.pendingCrit
      · exact hI.critPending
      · exact hI.chanEmpty
      · intro p msgs h
        exact PollPhase.noConfusion h
      · exact hI.lockedPendingNone
      · exact hI.noBusyDone
  | pollReadSome =>
      rename_i p msgs hpo hpend
      -- dead branch: while the poll goroutine holds the lock the slot is
      -- provably empty, so no snapshot is ever taken
      exfalso
      obtain ⟨u, hu⟩ := hI.pendingCrit p hpend
      have h1 := (hI.mutexEnq u).mpr (inCrit_of_dispatching_or_waiting hu)
      have h2 := hI.mutexPoll.mpr hpo
      rw [h1] at h2
      simp at h2
  | deliverMatch =>
      exfalso
      exact hI.noDelivering _ _ (by assumption)
  | deliverSkip =>
      exfalso
      exact hI.noDelivering _ _ (by assumption)
  | deliverDone =>
      rename_i p hpo
      exact absurd hpo (hI.noDelivering p [])

/-- Every reachable daemon state satisfies the invariant. -/
theorem inv_reach {r0 r1 : IPCRequest} {s : DState} (h : Reach r0 r1 s) : Inv s := by
  induction h with
  | refl => exact inv_init r0 r1
  | tail hreach hstep ih =>
      obtain ⟨act, hact⟩ := hstep
      exact inv_step ih hact

/-! ## A concrete interleaving: one enqueue blocked mid-wait

The requests of spec scenario A, and the states the daemon passes through
when the poll goroutine's ticker has fired (so it stands at `d.mu.Lock()`)
and thread t0's queueEmail has taken the lock, installed the slot and
dispatched the notification, while thread t1's queueEmail has not yet
started. -/

def reqA : IPCRequest :=
  { action := "queue_email", toAddr := "a@x.com", subject := "S1", body := "B1", draftID := "d1" }

def reqB : IPCRequest :=
  { action := "queue_email", toAddr := "b@x.com", subject := "S2", body := "B2", draftID := "d2" }

def entropyA : List Nat :=
  [17, 34, 51, 68, 85, 102, 119, 136, 153, 170, 187, 204, 221, 238, 255, 0]

def entropyR : List Nat :=
  [1, 2, 3, 4, 5, 6, 7, 8, 9, 10, 11, 12, 13, 14, 15, 16]

def pA : PendingEmail := makePending reqA (some entropyA) (some entropyR) 1700000000

def sTick : DState := { initState reqA reqB with poll := .acquiring }

def sLock : DState :=
  { sTick with mutex := some (.enqOwner .t0), enq := setEnq sTick.enq .t0 (.locked reqA) }

def sDisp : DState :=
  { sLock with pending := some pA, enq := setEnq sLock.enq .t0 .dispatching }

def sWait : DState := { sDisp with enq := setEnq sDisp.enq .t0 .waiting }

theorem step_tick : Step .pollAct (initState reqA reqB) sTick :=
  Step.tick (initState reqA reqB) rfl

theorem step_acquire : Step (.enqAct .t0) sTick sLock :=
  Step.acquire .t0 reqA sTick rfl rfl

theorem step_install : Step (.enqAct .t0) sLock sDisp :=
  Step.install .t0 reqA (some entropyA) (some entropyR) 1700000000 sLock rfl rfl

theorem step_dispatchOk : Step (.enqAct .t0) sDisp sWait :=
  Step.dispatchOk .t0 sDisp rfl

theorem reach_sDisp : Reach reqA reqB sDisp :=
  Relation.ReflTransGen.tail
    (Relation.ReflTransGen.tail
      (Relation.ReflTransGen.tail Relation.ReflTransGen.refl ⟨_, step_tick⟩)
      ⟨_, step_acquire⟩)
    ⟨_, step_install⟩

theorem reach_sWait : Reach reqA reqB sWait :=
  Relation.ReflTransGen.tail reach_sDisp ⟨_, step_dispatchOk⟩

/-- While t0's queueEmail is blocked in its select holding the mutex, t1's
queueEmail cannot take a single step: its `d.mu.Lock()` cannot return. -/
theorem t1_no_step_at_sWait (s' : DState) (h : Step (.enqAct .t1) sWait s') : False := by
  cases h <;> simp_all [sWait, sDisp, sLock, sTick, initState, setEnq]

/-- While t0's queueEmail holds the mutex inside sendApprovalNotification,
the poll goroutine standing at `d.mu.Lock()` cannot take a single step. -/
theorem poll_no_step_at_sDisp (s' : DState) (h : Step .pollAct sDisp s') : False := by
  cases h <;> simp_all [sDisp, sLock, sTick, initState, setEnq]

/-! ## Exact-match characterization of handlePollMessage -/

theorem hasPrefix_head {s p : String} (h : hasPrefix s p = true) (hne : p.data ≠ []) :
    s.data.head? = p.data.head? := by
  have h2 := eq_append_of_hasPrefix h
  rw [h2]
  show (p.data ++ (trimPrefix s p).data).head? = p.data.head?
  rw [List.head?_append]
  cases hd : p.data with
  | nil => exact absurd hd hne
  | cons c cs => simp

/-- A message carrying the "REJECT:" frame never enters the "APPROVE:"
branch: the first characters differ. -/
theorem reject_frame_not_approve (t : String) :
    hasPrefix ("REJECT:" ++ t) "APPROVE:" = false := by
  cases hb : hasPrefix ("REJECT:" ++ t) "APPROVE:"
  · rfl
  · exfalso
    have h2 := hasPrefix_head hb (by decide)
    rw [show ("REJECT:" ++ t).data.head? = some 'R' from rfl] at h2
    rw [show "APPROVE:".data.head? = some 'A' from rfl] at h2
    exact absurd h2 (by decide)

/-- handlePollMessage resolves to an approval exactly on the full "APPROVE:"
frame around the stored approve token. -/
theorem handlePollMessage_approved_iff (msg : NtfyPollMessage) (p : PendingEmail) :
    handlePollMessage msg p = some { approved := true, error := none } ↔
      msg.message = "APPROVE:" ++ p.approveToken := by
  constructor
  · intro h
    unfold handlePollMessage at h
    by_cases hp : hasPrefix msg.message "APPROVE:"
    · rw [if_pos hp] at h
      by_cases ht : trimPrefix msg.message "APPROVE:" = p.approveToken
      · rw [← ht]
        exact eq_append_of_hasPrefix hp
      · rw [if_neg ht] at h
        exact Option.noConfusion h
    · rw [if_neg hp] at h
      by_cases hr : hasPrefix msg.message "REJECT:"
      · rw [if_pos hr] at h
        by_cases ht : trimPrefix msg.message "REJECT:" = p.rejectToken
        · rw [if_pos ht] at h
          injection h with h2
          exact Bool.noConfusion (congrArg ApprovalResult.approved h2)
        · rw [if_neg ht] at h
          exact Option.noConfusion h
      · rw [if_neg hr] at h
        exact Option.noConfusion h
  · intro h
    unfold handlePollMessage
    rw [h]
    simp [hasPrefix_append, trimPrefix_append]

/-- handlePollMessage resolves to a rejection exactly on the full "REJECT:"
frame around the stored reject token. -/
theorem handlePollMessage_rejected_iff (msg : NtfyPollMessage) (p : PendingEmail) :
    handlePollMessage msg p = some { approved := false, error := none } ↔
      msg.message = "REJECT:" ++ p.rejectToken := by
  constructor
  · intro h
    unfold handlePollMessage at h
    by_cases hp : hasPrefix msg.message "APPROVE:"
    · rw [if_pos hp] at h
      by_cases ht : trimPrefix msg.message "APPROVE:" = p.approveToken
      · rw [if_pos ht] at h
        injection h with h2
        exact Bool.noConfusion (congrArg ApprovalResult.approved h2)
      · rw [if_neg ht] at h
        exact Option.noConfusion h
    · rw [if_neg hp] at h
      by_cases hr : hasPrefix msg.message "REJECT:"
      · rw [if_pos hr] at h
        by_cases ht : trimPrefix msg.message "REJECT:" = p.rejectToken
        · rw [← ht]
          exact eq_append_of_hasPrefix hr
        · rw [if_neg ht] at h
          exact Option.noConfusion h
      · rw [if_neg hr] at h
        exact Option.noConfusion h
  · intro h
    unfold handlePollMessage
    rw [h]
    rw [show (if hasPrefix ("REJECT:" ++ p.rejectToken) "APPROVE:" = true then _ else _) = _
          from if_neg (by rw [reject_frame_not_approve]; exact Bool.noConfusion)]
    simp [hasPrefix_append, trimPrefix_append]

/-- handlePollMessage sends nothing unless the message is exactly one of the
two framed stored tokens. -/
theorem handlePollMessage_none_of_ne (msg : NtfyPollMessage) (p : PendingEmail)
    (h1 : msg.message ≠ "APPROVE:" ++ p.approveToken)
    (h2 : msg.message ≠ "REJECT:" ++ p.rejectToken) :
    handlePollMessage msg p = none := by
  cases hres : handlePollMessage msg p with
  | none => rfl
  | some r =>
      exfalso
      have hr : r = { approved := true, error := none } ∨
          r = { approved := false, error := none } := by
        unfold handlePollMessage at hres
        by_cases hp : hasPrefix msg.message "APPROVE:"
        · rw [if_pos hp] at hres
          by_cases ht : trimPrefix msg.message "APPROVE:" = p.approveToken
          · rw [if_pos ht] at hres
            injection hres with h3
            exact Or.inl h3.symm
          · rw [if_neg ht] at hres
            exact Option.noConfusion hres
        · rw [if_neg hp] at hres
          by_cases hq : hasPrefix msg.message "REJECT:"
          · rw [if_pos hq] at hres
            by_cases ht : trimPrefix msg.message "REJECT:" = p.rejectToken
            · rw [if_pos ht] at hres
              injection hres with h3
              exact Or.inr h3.symm
            · rw [if_neg ht] at hres
              exact Option.noConfusion hres
          · rw [if_neg hq] at hres
            exact Option.noConfusion hres
      rcases hr with hr | hr <;> subst hr
      · exact h1 ((handlePollMessage_approved_iff msg p).mp hres)
      · exact h2 ((handlePollMessage_rejected_iff msg p).mp hres)

end Daemon

/-! ## The poll loop's cursor (startPolling, daemon.go)

startPolling sets `since := time.Now()` once before its ticker loop and
never reassigns it; each tick with a pending email calls
`pollNtfyMessages(topic, since)` and hands every returned record to
handlePollMessage. The broker is modelled as a function from the cursor
value to the batch the poll returns. -/

namespace Daemon

/-- The loop state of startPolling: just the `since` cursor (unix seconds). -/
structure PollLoopState where
  since : Int
  deriving Repr, DecidableEq

/-- `since := time.Now()` before the loop. -/
def startPollingInit (nowUnix : Int) : PollLoopState :=
  { since := nowUnix }

/-- One iteration of startPolling's loop body with a pending email present:
poll the broker with the current cursor, hand each record to
handlePollMessage, and continue with the loop state — the cursor is left
unchanged, since daemon.go never reassigns `since`. Returns what each
record resolved to, and the next loop state. -/
def pollTick (st : PollLoopState) (broker : Int → List NtfyPollMessage)
    (pending : PendingEmail) : List (Option ApprovalResult) × PollLoopState :=
  ((broker st.since).map fun m => handlePollMessage m pending, st)

end Daemon

/-! ## The MCP server side (main.go) -/

namespace Server

/-- sendToDaemon's I/O deadline (main.go): `conn.SetDeadline(time.Now().Add(6
* time.Minute))`, "5 min approval timeout + buffer". -/
def sendToDaemonDeadlineMinutes : Nat := 6

/-- PendingEmail, main.go: the web dashboard's pending entry. Its buffered
result channel is modelled at the use sites. -/
structure PendingEmail where
  id : String
  draftID : String
  toAddr : String  -- Go field To; `to` is a Lean keyword
  subject : String
  body : String
  queuedAt : Nat
  deriving Repr, DecidableEq

/-- EmailHistoryEntry, main.go. -/
structure EmailHistoryEntry where
  draftID : String
  toAddr : String  -- Go field To; `to` is a Lean keyword
  subject : String
  action : String
  timestamp : Nat
  deriving Repr, DecidableEq

/-- ApprovalSession, main.go: the dashboard's state — unguessable session
id, its own single pending slot, and the append-only history. -/
structure ApprovalSession where
  id : String
  createdAt : Nat
  pending : Option PendingEmail
  history : List EmailHistoryEntry
  deriving Repr, DecidableEq

/-- ApprovalSession.QueueEmail, main.go: errors when this session already
has a pending email, otherwise installs a new pending entry. Returns the Go
(pending, error) pair as an Except, plus the updated session. Note: nothing
in main.go calls this function — the send_email_ato tool path goes through
sendToDaemon to the approval daemon instead. -/
def ApprovalSession.QueueEmail (s : ApprovalSession) (pendingID draftID toA subject body : String)
    (now : Nat) : Except String PendingEmail × ApprovalSession :=
  match s.pending with
  | some _ =>
      (.error "another email is already pending approval - only one at a time allowed", s)
  | none =>
      let p : PendingEmail :=
        { id := pendingID, draftID := draftID, toAddr := toA, subject := subject,
          body := body, queuedAt := now }
      (.ok p, { s with pending := some p })

/-- ApprovalSession.Approve, main.go: errors when no email is pending;
otherwise clears the slot and appends a "sent" history entry. -/
def ApprovalSession.Approve (s : ApprovalSession) (now : Nat) :
    Except String PendingEmail × ApprovalSession :=
  match s.pending with
  | none => (.error "no email pending approval", s)
  | some p =>
      (.ok p,
        { s with pending := none,
                 history := s.history ++
                   [{ draftID := p.draftID, toAddr := p.toAddr, subject := p.subject,
                      action := "sent", timestamp := now }] })

/-- ApprovalSession.Reject, main.go: errors when no email is pending;
otherwise clears the slot and appends a "rejected" history entry. -/
def ApprovalSession.Reject (s : ApprovalSession) (now : Nat) :
    Except String PendingEmail × ApprovalSession :=
  match s.pending with
  | none => (.error "no email pending approval", s)
  | some p =>
      (.ok p,
        { s with pending := none,
                 history := s.history ++
                   [{ draftID := p.draftID, toAddr := p.toAddr, subject := p.subject,
                      action := "rejected", timestamp := now }] })

/-- What a dashboard HTTP handler produced: the HTTP-visible outcome plus
the ApprovalResult (if any) written to the resolved pending email's result
channel. -/
inductive DashResult
  | invalidSession
  | handlerError (msg : String)
  | sendFailed (msg : String)
  | ok
  deriving Repr, DecidableEq

/-- The POST /api/approve/{sessionID} handler, main.go: session check
(403 on mismatch), ApprovalSession.Approve (its error is answered with HTTP
400), then SendDraft — on failure the result channel gets a failed result
and the response carries the error; on success the channel gets an approved
result. `sendDraftErr` is SendDraft's outcome (`none` = sent). -/
def apiApprove (sessionID : String) (s : ApprovalSession) (now : Nat)
    (sendDraftErr : Option String) : DashResult × ApprovalSession × Option ApprovalResult :=
  if s.id ≠ sessionID then (.invalidSession, s, none)
  else
    match s.Approve now with
    | (.error e, s') => (.handlerError e, s', none)
    | (.ok _, s') =>
        match sendDraftErr with
        | some e => (.sendFailed e, s', some { approved := false, error := some e })
        | none => (.ok, s', some { approved := true, error := none })

/-- The POST /api/reject/{sessionID} handler, main.go: session check, then
ApprovalSession.Reject (error answered with HTTP 400), then a rejected
result on the channel. -/
def apiReject (sessionID : String) (s : ApprovalSession) (now : Nat) :
    DashResult × ApprovalSession × Option ApprovalResult :=
  if s.id ≠ sessionID then (.invalidSession, s, none)
  else
    match s.Reject now with
    | (.error e, s') => (.handlerError e, s', none)
    | (.ok _, s') => (.ok, s', some { approved := false, error := none })

/-! ## The send_email_ato tool handler (main.go)

After creating the draft, the handler calls sendToDaemon with action
"queue_email" and blocks; `daemonResp` is either a transport error (daemon
unreachable, I/O deadline, undecodable reply) or the daemon's IPCResponse.
Only when `resp.success` is true does the handler call
gmailServer.SendDraft; `sendDraftErr` is that call's outcome. -/

/-- What the handler did: whether SendDraft was invoked, and the tool
result. -/
structure ATOOutcome where
  sendDraftCalled : Bool
  isError : Bool
  text : String
  deriving Repr, DecidableEq

/-- The approval-and-send tail of the send_email_ato handler. -/
def sendEmailATO (daemonResp : Except String IPCResponse) (sendDraftErr : Option String) :
    ATOOutcome :=
  match daemonResp with
  | .error e => { sendDraftCalled := false, isError := true, text := e }
  | .ok resp =>
      if resp.success = false then
        { sendDraftCalled := false, isError := true, text := resp.error }
      else
        match sendDraftErr with
        | some e =>
            { sendDraftCalled := true, isError := true,
              text := "approved but failed to send: " ++ e }
        | none =>
            { sendDraftCalled := true, isError := false,
              text := "Email approved and sent successfully" }

end Server

/-! ## The two front-ends side by side

The approval daemon (its own process, reached over the Unix socket) and the
MCP server's dashboard ApprovalSession live in different processes and
share no state; a combined state is just the pair. The dashboard handlers
read and write only the session component. -/

structure CombinedState where
  daemon : Daemon.DState
  session : Server.ApprovalSession

/-- The dashboard approve click on the combined system: main.go's handler
touches only approvalSession (and the session's own pending ResultCh);
the daemon process is not involved. -/
def dashboardApprove (c : CombinedState) (sessionID : String) (now : Nat)
    (sendDraftErr : Option String) :
    Server.DashResult × CombinedState × Option ApprovalResult :=
  let (r, s', res) := Server.apiApprove sessionID c.session now sendDraftErr
  (r, { c with session := s' }, res)

/-- The dashboard reject click on the combined system. -/
def dashboardReject (c : CombinedState) (sessionID : String) (now : Nat) :
    Server.DashResult × CombinedState × Option ApprovalResult :=
  let (r, s', res) := Server.apiReject sessionID c.session now
  (r, { c with session := s' }, res)

/-- The session as NewApprovalSession creates it at server start: empty
pending slot, empty history. No call site of ApprovalSession.QueueEmail
exists in main.go, so the send_email_ato path never fills this slot. -/
def session0 : Server.ApprovalSession :=
  { id := "sess1", createdAt := 0, pending := none, history := [] }

/-! ## Further string-frame helper lemmas -/

theorem string_append_left_cancel {p a b : String} (h : p ++ a = p ++ b) : a = b := by
  have h2 := congrArg String.data h
  rw [show (p ++ a).data = p.data ++ a.data from rfl,
      show (p ++ b).data = p.data ++ b.data from rfl] at h2
  exact congrArg String.mk (List.append_cancel_left h2)

theorem reject_frame_ne_approve_frame (a b : String) :
    "REJECT:" ++ a ≠ "APPROVE:" ++ b := by
  intro h
  have h2 := congrArg (fun s => s.data.head?) h
  dsimp only at h2
  rw [show ("REJECT:" ++ a).data.head? = some 'R' from rfl,
      show ("APPROVE:" ++ b).data.head? = some 'A' from rfl] at h2
  exact absurd h2 (by decide)

namespace Daemon

/-- While the mutex is held by anyone, a poll goroutine standing at its
`d.mu.Lock()` cannot take any step. -/
theorem poll_acquire_blocked {s : DState} (hmu : s.mutex ≠ none)
    (hacq : s.poll = .acquiring) : ∀ s', ¬ Step .pollAct s s' := by
  intro s' h
  cases h <;> simp_all

end Daemon

/-! ## The claims -/

/-- C1: for every invocation of the send_email_ato tool, SendDraft runs only
when the daemon's reply has success = true; queueEmail replies with
success = true exactly for an explicit approved result (no error, approved),
and every other outcome — busy, dispatch failure, rejection, result error,
timeout, or transport failure (daemon unreachable) — has success = false, so
the draft is not sent. -/
theorem sendEmailATO_sends_only_on_approved :
    (∀ e sd, (Server.sendEmailATO (Except.error e) sd).sendDraftCalled = false) ∧
    (∀ resp sd, (Server.sendEmailATO (Except.ok resp) sd).sendDraftCalled = resp.success) ∧
    (∀ r, (Daemon.resultToResponse r).success = (r.error.isNone && r.approved)) ∧
    (∀ r, Daemon.resultToResponse r = Daemon.approvedResponse ∨
      (Daemon.resultToResponse r).success = false) ∧
    Daemon.busyResponse.success = false ∧
    (∀ e, (Daemon.dispatchFailureResponse e).success = false) ∧
    Daemon.timeoutResponse.success = false := by
  refine ⟨fun e sd => rfl, ?_, ?_, ?_, rfl, fun e => rfl, rfl⟩
  · intro resp sd
    cases hs : resp.success
    · simp [Server.sendEmailATO, hs]
    · cases sd <;> simp [Server.sendEmailATO, hs]
  · intro r
    obtain ⟨ap, err⟩ := r
    cases err <;> cases ap <;> rfl
  · intro r
    obtain ⟨ap, err⟩ := r
    cases err <;> cases ap <;>
      simp [Daemon.resultToResponse, Daemon.approvedResponse]

/-- C2: the code diverges from the claim. queueEmail holds the daemon mutex
for its entire run, including the blocking select, so: a second concurrent
enqueue cannot even pass `d.mu.Lock()` while the first waits (it blocks, it
does not fail fast); whenever any thread stands at the busy check the slot
is provably empty, so the busy branch is dead code; and no reachable state
has a thread returning the busy response. -/
theorem concurrent_enqueue_blocks_on_held_mutex :
    Daemon.Reach Daemon.reqA Daemon.reqB Daemon.sWait ∧
    Daemon.sWait.enq .t0 = .waiting ∧
    Daemon.sWait.enq .t1 = .idle Daemon.reqB ∧
    Daemon.sWait.mutex = some (.enqOwner .t0) ∧
    (∀ s', ¬ Daemon.Step (.enqAct .t1) Daemon.sWait s') ∧
    (∀ s, Daemon.Reach Daemon.reqA Daemon.reqB s →
      ∀ t req, s.enq t = .locked req → s.pending = none) ∧
    (∀ s, Daemon.Reach Daemon.reqA Daemon.reqB s →
      ∀ t, s.enq t ≠ .done Daemon.busyResponse) :=
  ⟨Daemon.reach_sWait, rfl, rfl, rfl,
    fun s' h => Daemon.t1_no_step_at_sWait s' h,
    fun _s hr => (Daemon.inv_reach hr).lockedPendingNone,
    fun _s hr => (Daemon.inv_reach hr).noBusyDone⟩

/-- The combined state of the C3 counterexample: the daemon blocked waiting
for approval of the email queued by send_email_ato, the dashboard session
with its own slot empty (nothing ever calls ApprovalSession.QueueEmail). -/
def c0 : CombinedState := { daemon := Daemon.sWait, session := session0 }

/-- C3 counterexample: with an email queued via send_email_ato pending in
the daemon and its caller blocked, a dashboard Approve or Reject click does
not resolve it — it answers "no email pending approval" (HTTP 400), writes
no ApprovalResult, and leaves the daemon state untouched. -/
theorem dashboard_approve_cannot_resolve_daemon_queue_cex :
    Daemon.Reach Daemon.reqA Daemon.reqB Daemon.sWait ∧
    Daemon.sWait.enq .t0 = .waiting ∧
    Daemon.sWait.pending = some Daemon.pA ∧
    dashboardApprove c0 "sess1" 5 none =
      (.handlerError "no email pending approval", c0, none) ∧
    dashboardReject c0 "sess1" 5 =
      (.handlerError "no email pending approval", c0, none) :=
  ⟨Daemon.reach_sWait, rfl, rfl, rfl, rfl⟩

/-- C3 amended: the two front-ends do not share a slot. The dashboard
handlers never touch the daemon's state; with the session slot empty (as
the send_email_ato path leaves it) they deliver no resolution; and within
the dashboard's own subsystem, Approve/Reject do resolve the session's own
pending email. -/
theorem dashboard_and_daemon_slots_disjoint :
    (∀ c sid now sde, (dashboardApprove c sid now sde).2.1.daemon = c.daemon) ∧
    (∀ c sid now, (dashboardReject c sid now).2.1.daemon = c.daemon) ∧
    (∀ c sid now sde, c.session.pending = none → (dashboardApprove c sid now sde).2.2 = none) ∧
    (∀ c sid now, c.session.pending = none → (dashboardReject c sid now).2.2 = none) ∧
    (∀ s p now, s.pending = some p →
      Server.apiApprove s.id s now none =
        (.ok, (Server.ApprovalSession.Approve s now).2, some { approved := true, error := none })) ∧
    (∀ s p now, s.pending = some p →
      Server.apiReject s.id s now =
        (.ok, (Server.ApprovalSession.Reject s now).2, some { approved := false, error := none })) := by
  refine ⟨fun c sid now sde => rfl, fun c sid now => rfl, ?_, ?_, ?_, ?_⟩
  · intro c sid now sde h
    by_cases hid : c.session.id ≠ sid <;>
      simp [dashboardApprove, Server.apiApprove, Server.ApprovalSession.Approve, h, hid]
  · intro c sid now h
    by_cases hid : c.session.id ≠ sid <;>
      simp [dashboardReject, Server.apiReject, Server.ApprovalSession.Reject, h, hid]
  · intro s p now h
    simp [Server.apiApprove, Server.ApprovalSession.Approve, h]
  · intro s p now h
    simp [Server.apiReject, Server.ApprovalSession.Reject, h]

/-- C4 counterexample: a reachable state in which thread t0 is inside
sendApprovalNotification (the dispatch step) while it still holds the
mutex and the slot is already installed, and in which the poll goroutine,
standing at `d.mu.Lock()`, cannot take a single step — contradicting
"dispatch runs outside the lock, the slot is installed after dispatch, and
readers are not blocked". -/
theorem dispatch_runs_under_lock_cex :
    Daemon.Reach Daemon.reqA Daemon.reqB Daemon.sDisp ∧
    Daemon.sDisp.enq .t0 = .dispatching ∧
    Daemon.sDisp.mutex = some (.enqOwner .t0) ∧
    Daemon.sDisp.pending = some Daemon.pA ∧
    Daemon.sDisp.poll = .acquiring ∧
    (∀ s', ¬ Daemon.Step .pollAct Daemon.sDisp s') :=
  ⟨Daemon.reach_sDisp, rfl, rfl, rfl, rfl, Daemon.poll_no_step_at_sDisp⟩

/-- C4 amended: in every reachable state, a thread inside the notification
dispatch holds the mutex, the slot is already installed before dispatch
finishes, and a poll-goroutine reader standing at its lock acquisition is
blocked for the duration of the network call. -/
theorem dispatch_under_lock_invariant (r0 r1 : IPCRequest) (s : Daemon.DState)
    (h : Daemon.Reach r0 r1 s) (t : Daemon.Tid) (hd : s.enq t = .dispatching) :
    s.mutex = some (.enqOwner t) ∧ s.pending ≠ none ∧
    (s.poll = .acquiring → ∀ s', ¬ Daemon.Step .pollAct s s') := by
  have hI := Daemon.inv_reach h
  have hmu : s.mutex = some (.enqOwner t) :=
    (hI.mutexEnq t).mpr (by rw [hd]; rfl)
  refine ⟨hmu, hI.critPending t (Or.inl hd), ?_⟩
  intro hacq
  exact Daemon.poll_acquire_blocked (by rw [hmu]; exact fun hc => Option.noConfusion hc) hacq

/-- C4 amended, witnessed at the concrete reachable dispatch state. -/
theorem dispatch_under_lock_invariant_witness :
    Daemon.sDisp.mutex = some (.enqOwner .t0) ∧ Daemon.sDisp.pending ≠ none ∧
    (Daemon.sDisp.poll = .acquiring → ∀ s', ¬ Daemon.Step .pollAct Daemon.sDisp s') :=
  dispatch_under_lock_invariant Daemon.reqA Daemon.reqB Daemon.sDisp Daemon.reach_sDisp
    .t0 rfl

/-- C5: handlePollMessage resolves by exact string equality only: an
"APPROVE:"-framed message resolves approval exactly when the remainder
equals the stored approve token, a "REJECT:"-framed message rejection
exactly when the remainder equals the stored reject token, and (for
distinct stored tokens) the approve token presented in a "REJECT:" frame,
or the reject token in an "APPROVE:" frame, resolves nothing. -/
theorem handlePollMessage_exact_token_match :
    (∀ msg p, Daemon.handlePollMessage msg p = some { approved := true, error := none } ↔
        msg.message = "APPROVE:" ++ p.approveToken) ∧
    (∀ msg p, Daemon.handlePollMessage msg p = some { approved := false, error := none } ↔
        msg.message = "REJECT:" ++ p.rejectToken) ∧
    (∀ msg p, p.approveToken ≠ p.rejectToken →
        msg.message = "REJECT:" ++ p.approveToken →
        Daemon.handlePollMessage msg p = none) ∧
    (∀ msg p, p.approveToken ≠ p.rejectToken →
        msg.message = "APPROVE:" ++ p.rejectToken →
        Daemon.handlePollMessage msg p = none) := by
  refine ⟨Daemon.handlePollMessage_approved_iff, Daemon.handlePollMessage_rejected_iff, ?_, ?_⟩
  · intro msg p hne hmsg
    refine Daemon.handlePollMessage_none_of_ne msg p ?_ ?_
    · rw [hmsg]
      exact reject_frame_ne_approve_frame _ _
    · rw [hmsg]
      intro h
      exact hne (string_append_left_cancel h)
  · intro msg p hne hmsg
    refine Daemon.handlePollMessage_none_of_ne msg p ?_ ?_
    · rw [hmsg]
      intro h
      exact hne (string_append_left_cancel h).symm
    · rw [hmsg]
      exact fun h => reject_frame_ne_approve_frame _ _ h.symm

/-- C6 counterexample: a dashboard resolution attempt with no pending email
is not a silent no-op — ApprovalSession.Approve returns the error "no email
pending approval" and the HTTP handlers answer it as an error (400). -/
theorem dashboard_resolve_without_pending_errors_cex :
    Server.ApprovalSession.Approve session0 7 =
      (.error "no email pending approval", session0) ∧
    Server.apiApprove "sess1" session0 7 none =
      (.handlerError "no email pending approval", session0, none) ∧
    Server.apiReject "sess1" session0 7 =
      (.handlerError "no email pending approval", session0, none) :=
  ⟨rfl, rfl, rfl⟩

/-- C6 amended: resolution attempts against a missing or mismatching slot
never mutate queue state — a polled broker message that matches no stored
token resolves nothing, a poll-goroutine step never changes the pending
slot, the channel or any enqueue thread, and a dashboard Approve/Reject
with no pending email leaves the session unchanged — but the dashboard
path答 returns an explicit error ("no email pending approval") rather than
succeeding silently. -/
theorem resolution_attempt_noop_semantics :
    (∀ msg p, msg.message ≠ "APPROVE:" ++ p.approveToken →
        msg.message ≠ "REJECT:" ++ p.rejectToken →
        Daemon.handlePollMessage msg p = none) ∧
    (∀ r0 r1 s s', Daemon.Reach r0 r1 s → Daemon.Step .pollAct s s' →
        s'.pending = s.pending ∧ s'.resultChan = s.resultChan ∧ ∀ t, s'.enq t = s.enq t) ∧
    (∀ s now, s.pending = none →
        Server.ApprovalSession.Approve s now = (.error "no email pending approval", s)) ∧
    (∀ s now, s.pending = none →
        Server.ApprovalSession.Reject s now = (.error "no email pending approval", s)) := by
  refine ⟨Daemon.handlePollMessage_none_of_ne, ?_, ?_, ?_⟩
  · intro r0 r1 s s' hr hstep
    cases hstep with
    | tick => exact ⟨rfl, rfl, fun t => rfl⟩
    | pollAcquire => exact ⟨rfl, rfl, fun t => rfl⟩
    | pollReadNone => exact ⟨rfl, rfl, fun t => rfl⟩
    | pollReadSome => exact ⟨rfl, rfl, fun t => rfl⟩
    | deliverMatch =>
        exact absurd (by assumption) ((Daemon.inv_reach hr).noDelivering _ _)
    | deliverSkip =>
        exact absurd (by assumption) ((Daemon.inv_reach hr).noDelivering _ _)
    | deliverDone =>
        exact absurd (by assumption) ((Daemon.inv_reach hr).noDelivering _ _)
  · intro s now h
    simp [Server.ApprovalSession.Approve, h]
  · intro s now h
    simp [Server.ApprovalSession.Reject, h]

/-- C7: when the notification dispatch fails, queueEmail returns the
dispatch-failure error directly (no blocking wait), retracts the
just-installed slot and releases the lock, and an immediately following
enqueue by the other thread acquires the lock, passes the busy check and
installs its own slot. -/
theorem dispatch_failure_retracts_pending (s : Daemon.DState) (t : Daemon.Tid)
    (e : String) (hd : s.enq t = .dispatching) :
    ∃ s', Daemon.Step (.enqAct t) s s' ∧
      s'.enq t = .done (Daemon.dispatchFailureResponse e) ∧
      (Daemon.dispatchFailureResponse e).success = false ∧
      s'.pending = none ∧ s'.mutex = none ∧
      ∀ (u : Daemon.Tid) (requ : IPCRequest), u ≠ t → s.enq u = .idle requ →
        ∀ entA entR now, ∃ s2 s3,
          Daemon.Step (.enqAct u) s' s2 ∧ Daemon.Step (.enqAct u) s2 s3 ∧
          s3.pending = some (Daemon.makePending requ entA entR now) ∧
          s3.enq u = .dispatching := by
  refine ⟨_, Daemon.Step.dispatchFail t e s hd, Daemon.setEnq_same _ _ _, rfl, rfl, rfl, ?_⟩
  intro u requ hut hu entA entR now
  refine ⟨_, _, Daemon.Step.acquire u requ _ ?_ rfl, Daemon.Step.install u requ entA entR now _ ?_ rfl, rfl, Daemon.setEnq_same _ _ _⟩
  · show Daemon.setEnq s.enq t (.done (Daemon.dispatchFailureResponse e)) u = .idle requ
    rw [Daemon.setEnq_other _ _ hut]
    exact hu
  · show Daemon.setEnq (Daemon.setEnq s.enq t (.done (Daemon.dispatchFailureResponse e))) u
      (.locked requ) u = .locked requ
    exact Daemon.setEnq_same _ _ _

/-- C7, witnessed at the concrete reachable dispatch state with thread t1
idle. -/
theorem dispatch_failure_retracts_pending_witness :
    ∃ s', Daemon.Step (.enqAct .t0) Daemon.sDisp s' ∧
      s'.enq .t0 = .done (Daemon.dispatchFailureResponse "connection refused") ∧
      (Daemon.dispatchFailureResponse "connection refused").success = false ∧
      s'.pending = none ∧ s'.mutex = none ∧
      ∀ (u : Daemon.Tid) (requ : IPCRequest), u ≠ .t0 → Daemon.sDisp.enq u = .idle requ →
        ∀ entA entR now, ∃ s2 s3,
          Daemon.Step (.enqAct u) s' s2 ∧ Daemon.Step (.enqAct u) s2 s3 ∧
          s3.pending = some (Daemon.makePending requ entA entR now) ∧
          s3.enq u = .dispatching :=
  dispatch_failure_retracts_pending Daemon.sDisp .t0 "connection refused" rfl

/-- C8: the queue timeout is the fixed 5 minutes and the IPC caller's I/O
deadline of 6 minutes strictly exceeds it; a blocked queueEmail can always
take the timeout step, returning the "approval timed out" failure, emptying
the slot and releasing the lock, after which a fresh enqueue acquires the
lock, passes the busy check and installs its own slot. -/
theorem timeout_empties_slot_and_deadlines :
    (Daemon.queueTimeoutMinutes = 5 ∧ Server.sendToDaemonDeadlineMinutes = 6 ∧
      Daemon.queueTimeoutMinutes < Server.sendToDaemonDeadlineMinutes) ∧
    (∀ (s : Daemon.DState) (t : Daemon.Tid), s.enq t = .waiting →
      ∃ s', Daemon.Step (.enqAct t) s s' ∧
        s'.enq t = .done Daemon.timeoutResponse ∧
        Daemon.timeoutResponse = { success := false, error := "approval timed out" } ∧
        s'.pending = none ∧ s'.mutex = none ∧
        ∀ (u : Daemon.Tid) (requ : IPCRequest), u ≠ t → s.enq u = .idle requ →
          ∀ entA entR now, ∃ s2 s3,
            Daemon.Step (.enqAct u) s' s2 ∧ Daemon.Step (.enqAct u) s2 s3 ∧
            s3.pending = some (Daemon.makePending requ entA entR now) ∧
            s3.enq u = .dispatching) := by
  refine ⟨⟨rfl, rfl, by decide⟩, ?_⟩
  intro s t hw
  refine ⟨_, Daemon.Step.timeout t s hw, Daemon.setEnq_same _ _ _, rfl, rfl, rfl, ?_⟩
  intro u requ hut hu entA entR now
  refine ⟨_, _, Daemon.Step.acquire u requ _ ?_ rfl, Daemon.Step.install u requ entA entR now _ ?_ rfl, rfl, Daemon.setEnq_same _ _ _⟩
  · show Daemon.setEnq s.enq t (.done Daemon.timeoutResponse) u = .idle requ
    rw [Daemon.setEnq_other _ _ hut]
    exact hu
  · show Daemon.setEnq (Daemon.setEnq s.enq t (.done Daemon.timeoutResponse)) u
      (.locked requ) u = .locked requ
    exact Daemon.setEnq_same _ _ _

/-- The pending email, broker behaviour and broker event of the C9
counterexample: the event postdates the fixed cursor, so the broker
returns it on every poll with that cursor. -/
def pEx : Daemon.PendingEmail :=
  { draftID := "d9", toAddr := "a@x.com", subject := "S", body := "B",
    approveToken := "tokA", rejectToken := "tokR", queuedAt := 100 }

def msgEx : NtfyPollMessage :=
  { id := "m1", time := 150, event := "message", topic := "gmail-mcp-topic",
    message := "APPROVE:tokA" }

def brokerEx : Int → List NtfyPollMessage :=
  fun since => if since < msgEx.time then [msgEx] else []

/-- C9 counterexample: startPolling's cursor never advances — after a tick
that fetched and delivered the approval event to handlePollMessage, the
next tick polls with the same cursor and delivers the very same event
again, so broker events are not processed at most once. -/
theorem poll_event_delivered_twice_cex :
    (Daemon.pollTick (Daemon.startPollingInit 100) brokerEx pEx).2 =
      Daemon.startPollingInit 100 ∧
    (Daemon.pollTick (Daemon.startPollingInit 100) brokerEx pEx).1 =
      [some { approved := true, error := none }] ∧
    (Daemon.pollTick ((Daemon.pollTick (Daemon.startPollingInit 100) brokerEx pEx).2)
        brokerEx pEx).1 =
      [some { approved := true, error := none }] :=
  ⟨rfl, by decide, by decide⟩

/-- C9 amended: the `since` cursor is set once to the daemon's start time
and never advances; every tick re-polls with the same cursor and hands the
same batch to handlePollMessage again, so the cursor only excludes events
from before the daemon started, not already-processed ones. -/
theorem poll_cursor_fixed :
    (∀ st broker p, (Daemon.pollTick st broker p).2 = st) ∧
    (∀ st broker p,
      (Daemon.pollTick ((Daemon.pollTick st broker p).2) broker p).1 =
        (Daemon.pollTick st broker p).1) ∧
    (∀ nowUnix, (Daemon.startPollingInit nowUnix).since = nowUnix) :=
  ⟨fun _st _broker _p => rfl, fun _st _broker _p => rfl, fun _n => rfl⟩

/-- C10: queueEmail discards generateToken's errors — when the randomness
read fails, generateToken reports an error but queueEmail still installs a
PendingEmail whose two tokens are the empty string, and a broker message
whose body is exactly "APPROVE:" (resp. "REJECT:") then matches it. -/
theorem generateToken_failure_still_queues :
    ((Daemon.generateToken none).1 = "" ∧ (Daemon.generateToken none).2.isSome = true) ∧
    (∀ req now, (Daemon.makePending req none none now).approveToken = "" ∧
        (Daemon.makePending req none none now).rejectToken = "") ∧
    (∀ s t req now, s.enq t = .locked req → s.pending = none →
        ∃ s', Daemon.Step (.enqAct t) s s' ∧
          s'.pending = some (Daemon.makePending req none none now) ∧
          s'.enq t = .dispatching) ∧
    (∀ req now msg, msg.message = "APPROVE:" →
        Daemon.handlePollMessage msg (Daemon.makePending req none none now) =
          some { approved := true, error := none }) ∧
    (∀ req now msg, msg.message = "REJECT:" →
        Daemon.handlePollMessage msg (Daemon.makePending req none none now) =
          some { approved := false, error := none }) := by
  refine ⟨⟨rfl, rfl⟩, fun req now => ⟨rfl, rfl⟩, ?_, ?_, ?_⟩
  · intro s t req now hl hp
    exact ⟨_, Daemon.Step.install t req none none now s hl hp, rfl,
      Daemon.setEnq_same _ _ _⟩
  · intro req now msg hmsg
    rw [Daemon.handlePollMessage_approved_iff, hmsg]
    show "APPROVE:" = "APPROVE:" ++ ""
    decide
  · intro req now msg hmsg
    rw [Daemon.handlePollMessage_rejected_iff, hmsg]
    show "REJECT:" = "REJECT:" ++ ""
    decide

end GmailMCP
